import Mathlib

/-!
Verification development for the AkuAI-Core evaluation harness
(scoring / statistics engine, IRR ingestion pipeline, and the UIB event
matching service).

Go strings are modelled as `List Char` (`Str`), so that every string
operation used by the source (ToLower, TrimSpace, Contains, Split, ...)
is an executable, decidable list function.  Go float64 arithmetic is
idealised as exact arithmetic: values that stay rational (scores,
ranks, counts) live in `ℚ`; quantities built with `math.Sqrt` or the
normal CDF live in `ℝ`, with the standard normal CDF `Φ` passed as an
explicit parameter (the source computes it from `math.Erf`).
-/

/-- Go strings, modelled as lists of characters. -/
abbrev Str := List Char

/-- Embed a Lean string literal as a `Str`. -/
def str (s : String) : Str := s.data

/-- `strings.ToLower` (ASCII case folding, which covers every string
the embedded code compares). -/
def sToLower (s : Str) : Str := s.map Char.toLower

/-- Whitespace test used by `strings.TrimSpace` (ASCII subset). -/
def isSpaceChar (c : Char) : Bool :=
  c = ' ' || c = '\t' || c = '\n' || c = '\r'

/-- `strings.TrimSpace`: drop whitespace from both ends. -/
def sTrimSpace (s : Str) : Str :=
  ((s.dropWhile isSpaceChar).reverse.dropWhile isSpaceChar).reverse

/-- `strings.Trim` with an explicit cutset: drop characters of `cut`
from both ends. -/
def sTrimCut (cut : Str) (s : Str) : Str :=
  ((s.dropWhile (cut.contains ·)).reverse.dropWhile (cut.contains ·)).reverse

/-- Does `s` start with `pre`? (`strings.HasPrefix`). -/
def startsWith : Str → Str → Bool
  | _, [] => true
  | [], _ :: _ => false
  | c :: s, p :: pre => c = p && startsWith s pre

/-- `strings.Contains s sub`: does `sub` occur as a contiguous substring
of `s`? -/
def sContains (s sub : Str) : Bool :=
  match s with
  | [] => startsWith [] sub
  | _ :: t => startsWith s sub || sContains t sub

/-- `strings.FieldsFunc`: split on characters satisfying `p`, dropping
empty fields. -/
def fieldsBy (p : Char → Bool) (s : Str) : List Str :=
  (s.splitOnP p).filter (· ≠ [])

/-!
## Statistics suite (`wilcoxonSignedRank`, `mcnemarTest`)

Embedded from cmd/.../score and abjudge sources (the two copies of each
function are line-for-line identical in the statistics they compute; the
abjudge `mcnemarTest` takes `[]int` fail indicators and compares them to
`1`, which is the `List Bool` below after mapping `(· == 1)`).

The source's sorted-run mid-rank assignment gives every difference with
absolute value `a` the rank `((i+1)+j)/2`, where `i` is the number of
absolute differences strictly below `a` and `j` the number at most `a`
(run of equal values at sorted positions `i..j-1`).  `rankOf` computes
exactly that value by counting, which is what the sort-and-walk in the
source evaluates to.
-/

/-- Result of the Wilcoxon signed-rank test: `(Wplus, z, p, n)` in the
source. -/
structure WilcoxonResult where
  wplus : ℚ
  z : ℝ
  p : ℝ
  n : ℕ

/-- `wilcoxonSignedRank(baseline, engineered)`.  `Φ` is the standard
normal CDF `0.5*(1+erf(z/√2))` of the source, passed as a parameter. -/
noncomputable def wilcoxonSignedRank (Φ : ℝ → ℝ) (baseline engineered : List ℚ) :
    WilcoxonResult :=
  let diffs := ((baseline.zip engineered).map (fun pr => pr.2 - pr.1)).filter (· ≠ 0)
  let as := diffs.map (fun d => |d|)
  let rankOf : ℚ → ℚ := fun a =>
    ((as.countP (fun x => x < a) : ℚ) + (as.countP (fun x => x ≤ a) : ℚ) + 1) / 2
  let Wplus : ℚ := ((diffs.filter (fun d => 0 < d)).map (fun d => rankOf |d|)).sum
  let n := diffs.length
  if n = 0 then ⟨0, 0, 1, 0⟩
  else
    let mu : ℝ := (n * (n + 1) : ℕ) / 4
    let sigma : ℝ := Real.sqrt ((n * (n + 1) * (2 * n + 1) : ℕ) / 24)
    let z : ℝ := ((Wplus : ℝ) - mu) / sigma
    let cdf := Φ z
    let p : ℝ := 2 * (1 - |cdf - 0.5| * 2)
    ⟨Wplus, z, p, n⟩

/-- Result of McNemar's test: `(b, c, chi2, p)` in the source. -/
structure McNemarResult where
  b : ℕ
  c : ℕ
  chi2 : ℝ
  p : ℝ

/-- Discordant-pair counts of `mcnemarTest`:
`b` counts indices where baseline fails and engineered does not,
`c` the reverse. -/
def mcnemarCounts (baselineFail engineeredFail : List Bool) : ℕ × ℕ :=
  ((baselineFail.zip engineeredFail).countP (fun pr => pr.1 && !pr.2),
   (baselineFail.zip engineeredFail).countP (fun pr => !pr.1 && pr.2))

/-- `mcnemarTest(baselineFail, engineeredFail)`: continuity-corrected
asymptotic McNemar test; `p = 2*(1-Φ(√chi2))`. -/
noncomputable def mcnemarTest (Φ : ℝ → ℝ) (baselineFail engineeredFail : List Bool) :
    McNemarResult :=
  let b := (mcnemarCounts baselineFail engineeredFail).1
  let c := (mcnemarCounts baselineFail engineeredFail).2
  if b + c = 0 then ⟨b, c, 0, 1⟩
  else
    let chi2 : ℝ := (|(b : ℝ) - (c : ℝ)| - 1) ^ 2 / ((b : ℝ) + (c : ℝ))
    let z := Real.sqrt chi2
    let p : ℝ := 2 * (1 - Φ z)
    ⟨b, c, chi2, p⟩

/-!
## Ratings import (`parseRatingsCSV`, abjudge)

The CSV file is modelled after `csv.ReadAll`: a list of records, each a
list of cell strings (Go's reader enforces that all records have the
same number of fields as the header).
-/

/-- One rater's judgment on one (query, mode) pair. -/
structure RatingRow where
  query : Str
  mode : Str
  rater : Str
  relevance : ℤ
  accuracy : ℤ
  complete : ℤ
  useful : ℤ
  jsonValid : ℤ
  deriving DecidableEq

/-- Numeric value of a digit string (helper for `atoi`). -/
def digitsToNat (ds : Str) : ℕ := ds.foldl (fun a c => a * 10 + (c.toNat - 48)) 0

/-- `strconv.Atoi`: optional sign followed by at least one digit;
anything else is a parse error (`none`). -/
def atoi (s : Str) : Option ℤ :=
  match s with
  | [] => none
  | c :: rest =>
    let sgn : ℤ := if c = '-' then -1 else 1
    let digits : Str := if c = '-' || c = '+' then rest else s
    if digits ≠ [] && digits.all Char.isDigit then some (sgn * digitsToNat digits)
    else none

/-- `strings.EqualFold(strings.TrimSpace(h), name)` as used to match
header cells against required column names. -/
def eqFold (h name : Str) : Bool := sToLower (sTrimSpace h) == sToLower name

/-- The `idx` closure of `parseRatingsCSV`: first column of `header`
matching `name` case-insensitively (`none` encodes Go's `-1`). -/
def idx (header : List Str) (name : Str) : Option ℕ :=
  header.findIdx? (fun h => eqFold h name)

/-- The `get` closure of `parseRatingsCSV`: the trimmed cell of `line`
under column `col`, or `""` when the column is absent or the line is
too short. -/
def getCell (header line : List Str) (col : Str) : Str :=
  match idx header col with
  | some i => if i < line.length then sTrimSpace (line.getD i []) else []
  | none => []

/-- A data row is skipped when the concatenation of its cells trims to
the empty string (`len(strings.TrimSpace(strings.Join(line,""))) == 0`). -/
def isBlankRow (line : List Str) : Bool := sTrimSpace line.flatten == []

/-- The eight required columns, in canonical order. -/
def requiredCols : List Str :=
  [str "query", str "mode", str "rater", str "relevance", str "accuracy",
   str "completeness", str "usefulness", str "json_valid"]

/-- The `parseInt` closure: non-empty cell that `Atoi` accepts. -/
def parseIntCell (header line : List Str) (col : Str) : Except Str ℤ :=
  let v := getCell header line col
  if v = [] then .error (str "missing value for " ++ col)
  else
    match atoi v with
    | none => .error (str "bad int for " ++ col)
    | some iv => .ok iv

/-- Body of the per-line loop of `parseRatingsCSV` (the non-blank
case): required text cells non-empty, five integer cells parsed, Likert
range `[1,5]` and binary range `{0,1}` enforced. -/
def parseRow (header line : List Str) : Except Str RatingRow :=
  let q := getCell header line (str "query")
  let m := getCell header line (str "mode")
  let rt := getCell header line (str "rater")
  if q = [] ∨ m = [] ∨ rt = [] then .error (str "invalid row (query/mode/rater)")
  else
    match parseIntCell header line (str "relevance") with
    | .error e => .error e
    | .ok rel =>
    match parseIntCell header line (str "accuracy") with
    | .error e => .error e
    | .ok acc =>
    match parseIntCell header line (str "completeness") with
    | .error e => .error e
    | .ok comp =>
    match parseIntCell header line (str "usefulness") with
    | .error e => .error e
    | .ok usef =>
    match parseIntCell header line (str "json_valid") with
    | .error e => .error e
    | .ok js =>
    if rel < 1 ∨ 5 < rel ∨ comp < 1 ∨ 5 < comp ∨ usef < 1 ∨ 5 < usef then
      .error (str "likert out of range in row " ++ q)
    else if ¬(acc = 0 ∨ acc = 1) ∨ ¬(js = 0 ∨ js = 1) then
      .error (str "binary out of range in row " ++ q)
    else .ok ⟨q, m, rt, rel, acc, comp, usef, js⟩

/-- The data-row loop of `parseRatingsCSV`: blank lines are skipped,
the first failing line aborts the whole parse. -/
def parseRows (header : List Str) : List (List Str) → Except Str (List RatingRow)
  | [] => .ok []
  | line :: rest =>
    if isBlankRow line then parseRows header rest
    else
      match parseRow header line with
      | .error e => .error e
      | .ok row =>
        match parseRows header rest with
        | .error e => .error e
        | .ok out => .ok (row :: out)

/-- Header validation of `parseRatingsCSV`: at least 8 columns, first
column `query`, and every required column present somewhere. -/
def headerCheck (header : List Str) : Except Str Unit :=
  if header.length < 8 ∨ sToLower (sTrimSpace (header.getD 0 [])) ≠ str "query" then
    .error (str "invalid header: first column must be query")
  else
    match requiredCols.find? (fun c => (idx header c).isNone) with
    | some c => .error (str "missing column " ++ c)
    | none => .ok ()

/-- `parseRatingsCSV` on the record list returned by `csv.ReadAll`. -/
def parseRatingsCSV (rows : List (List Str)) : Except Str (List RatingRow) :=
  match rows with
  | [] => .error (str "empty csv")
  | header :: data =>
    match headerCheck header with
    | .error e => .error e
    | .ok _ => parseRows header data

/-- Reorder the 8 cells of a record by `σ`: cell `i` of the new record
is cell `σ i` of the old one. -/
def permLine (σ : Equiv.Perm (Fin 8)) (line : List Str) : List Str :=
  (List.finRange 8).map (fun i => line.getD (σ i).val [])

/-!
## IRR pipeline (abjudge `main`: rater validation before aggregation)

`byItem` is the map from (query, mode) to the per-rater rows; its key
set is the set of (query, mode) pairs occurring in the rating rows
(iteration order modelled as first occurrence; Go map order is
unspecified, and no claim depends on which offending pair is reported
first).
-/

/-- Key set of `byItem`, in first-occurrence order. -/
def keysOf (rows : List RatingRow) : List (Str × Str) :=
  (rows.map (fun r => (r.query, r.mode))).dedup

/-- `byItem[k][rater]` as an optional row (map overwrite: the last row
with the key wins). -/
def findRating (rows : List RatingRow) (q m rater : Str) : Option RatingRow :=
  (rows.filter (fun r => r.query = q && r.mode = m && r.rater = rater)).getLast?

/-- Does rater `rater` have a row for (query, mode)? -/
def hasRater (rows : List RatingRow) (q m rater : Str) : Bool :=
  rows.any (fun r => r.query = q && r.mode = m && r.rater = rater)

/-- The validation loop of abjudge `main`: the first (query, mode) pair
missing one of the two expected raters, together with the missing
rater's name; `none` when both raters cover every pair. -/
def validateRaters (rows : List RatingRow) (raterA raterB : Str) :
    Option (Str × Str × Str) :=
  (keysOf rows).findSome? (fun k =>
    if !hasRater rows k.1 k.2 raterA then some (raterA, k.1, k.2)
    else if !hasRater rows k.1 k.2 raterB then some (raterB, k.1, k.2)
    else none)

/-- Placeholder row (never observable: aggregation only reads raters
that validation proved present). -/
def dummyRating : RatingRow := ⟨[], [], [], 0, 0, 0, 0, 0⟩

/-- The per-item IRR containers built by the aggregation loop
(`relItems`, `comItems`, `useItems`, `accA/accB`, `jsA/jsB`). -/
structure IRRAggregates where
  relItems : List (ℤ × ℤ)
  comItems : List (ℤ × ℤ)
  useItems : List (ℤ × ℤ)
  accA : List ℤ
  accB : List ℤ
  jsA : List ℤ
  jsB : List ℤ
  deriving DecidableEq

/-- The aggregation loop of abjudge `main` (IRR containers; the
per-mode Likert averages and binary consensus feed the same loop and
are downstream of the same validation). -/
def buildAggregates (rows : List RatingRow) (raterA raterB : Str) : IRRAggregates :=
  let keys := keysOf rows
  let pick := fun (k : Str × Str) (rt : Str) => (findRating rows k.1 k.2 rt).getD dummyRating
  { relItems := keys.map (fun k => ((pick k raterA).relevance, (pick k raterB).relevance))
    comItems := keys.map (fun k => ((pick k raterA).complete, (pick k raterB).complete))
    useItems := keys.map (fun k => ((pick k raterA).useful, (pick k raterB).useful))
    accA := keys.map (fun k => (pick k raterA).accuracy)
    accB := keys.map (fun k => (pick k raterB).accuracy)
    jsA := keys.map (fun k => (pick k raterA).jsonValid)
    jsB := keys.map (fun k => (pick k raterB).jsonValid) }

/-- The IRR pipeline stage of abjudge `main`: the rater-coverage
validation runs strictly before aggregation (`os.Exit(1)` on the first
missing rater), so a missing rater yields an error and no aggregate. -/
def irrPipeline (rows : List RatingRow) (raterA raterB : Str) :
    Except (Str × Str × Str) IRRAggregates :=
  match validateRaters rows raterA raterB with
  | some e => .error e
  | none => .ok (buildAggregates rows raterA raterB)

/-!
## UIB event service (`pkg/services/uib_service.go`)

`UIBEvent` carries the fields the embedded code paths read (Time,
Location, Platform, RegistrationFee, Requirements and Mark exist in the
source but are not touched by any claim's code path).  The wall clock
(`time.Now()` in `GetUpcomingEvents`) is an explicit `now` parameter,
modelled at day granularity: an event is upcoming when its parsed date
is on or after `now` (`eventDate.After(now) ||
eventDate.Equal(now.Truncate(24h))` for a midnight `now`).
-/

/-- An event of the ground-truth catalog. -/
structure UIBEvent where
  id : Str
  title : Str
  type : Str
  date : Str
  department : Str
  description : Str
  speaker : Str
  contact : Str
  deriving DecidableEq

/-- The loaded events file: three month lists. -/
structure EventsCatalog where
  october : List UIBEvent
  november : List UIBEvent
  december : List UIBEvent
  deriving DecidableEq

/-- `GetAllEvents`: concatenation of the three month lists. -/
def getAllEvents (cat : EventsCatalog) : List UIBEvent :=
  cat.october ++ cat.november ++ cat.december

/-- Keyword list of `AnalyzeQueryForUIB`. -/
def uibKeywords : List Str :=
  [str "uib", str "universitas internasional batam", str "batam",
   str "sertifikasi uib", str "webinar uib", str "acara uib",
   str "oktober uib", str "november uib", str "desember uib",
   str "pendaftaran uib", str "event uib", str "kegiatan uib"]

/-- `AnalyzeQueryForUIB`: is the query UIB-related? -/
def analyzeQueryForUIB (query : Str) : Bool :=
  let queryLower := sToLower query
  uibKeywords.any (fun k => sContains queryLower k)

/-- `isEventRelevantToQuery`: some searchable field contains the
lowercased query, or a month name in the query matches the date's
month prefix. -/
def isEventRelevantToQuery (event : UIBEvent) (queryLower : Str) : Bool :=
  [sToLower event.title, sToLower event.description, sToLower event.department,
   sToLower event.type, sToLower event.speaker, event.date].any
    (fun f => sContains f queryLower)
  || (sContains queryLower (str "oktober") && sContains event.date (str "2025-10"))
  || (sContains queryLower (str "november") && sContains event.date (str "2025-11"))
  || (sContains queryLower (str "desember") && sContains event.date (str "2025-12"))

/-- A calendar date (used for `time.Parse("2006-01-02", ...)` values
and for the modelled wall clock). -/
structure CalDate where
  year : ℕ
  month : ℕ
  day : ℕ
  deriving DecidableEq

/-- Gregorian leap year. -/
def isLeapYear (y : ℕ) : Bool := (y % 4 = 0 && y % 100 ≠ 0) || y % 400 = 0

/-- Days in a month (for `time.Parse` day validation). -/
def daysInMonth (y m : ℕ) : ℕ :=
  if m = 2 then (if isLeapYear y then 29 else 28)
  else if m = 4 ∨ m = 6 ∨ m = 9 ∨ m = 11 then 30
  else 31

/-- Numeric value of a digit character. -/
def digitVal (c : Char) : ℕ := c.toNat - 48

/-- `time.Parse("2006-01-02", s)`: `YYYY-MM-DD` with month and day
range validation; `none` is Go's parse error (the repository's dates
are zero-padded, so Go's tolerance for unpadded numeric fields is not
exercised). -/
def parseDate (s : Str) : Option CalDate :=
  match s with
  | [y1, y2, y3, y4, '-', m1, m2, '-', d1, d2] =>
    if [y1, y2, y3, y4, m1, m2, d1, d2].all Char.isDigit then
      let y := digitVal y1 * 1000 + digitVal y2 * 100 + digitVal y3 * 10 + digitVal y4
      let m := digitVal m1 * 10 + digitVal m2
      let d := digitVal d1 * 10 + digitVal d2
      if 1 ≤ m && m ≤ 12 && 1 ≤ d && d ≤ daysInMonth y m then some ⟨y, m, d⟩ else none
    else none
  | _ => none

/-- Order key of a date (lexicographic year/month/day, the order of the
underlying instants for a fixed day-start). -/
def dkey (d : CalDate) : ℕ := d.year * 10000 + d.month * 100 + d.day

/-- `GetUpcomingEvents`: events whose parsed date is on or after the
current day; unparsable dates are dropped. -/
def getUpcomingEvents (cat : EventsCatalog) (now : CalDate) : List UIBEvent :=
  (getAllEvents cat).filter (fun ev =>
    match parseDate ev.date with
    | none => false
    | some d => dkey now < dkey d || dkey d = dkey now)

/-- `GetEventsByMonth`: switch on the lowercased month name (any other
string, including numeric month strings, falls through to `[]`). -/
def getEventsByMonth (cat : EventsCatalog) (month : Str) : List UIBEvent :=
  let m := sToLower month
  if m = str "october" ∨ m = str "oktober" then cat.october
  else if m = str "november" then cat.november
  else if m = str "december" ∨ m = str "desember" then cat.december
  else []

/-- `GetRelevantEventsForQuery`: field/month matching over the whole
catalog, falling back to the (wall-clock-dependent) upcoming events
when nothing matched and the query is UIB-related. -/
def getRelevantEventsForQuery (cat : EventsCatalog) (now : CalDate) (query : Str) :
    List UIBEvent :=
  let queryLower := sToLower query
  let relevantEvents := (getAllEvents cat).filter
    (fun ev => isEventRelevantToQuery ev queryLower)
  if relevantEvents = [] ∧ analyzeQueryForUIB query then getUpcomingEvents cat now
  else relevantEvents

/-!
## Scoring (cmd/.../score: `predictedTitles`, `relevantTitles`,
`evalWithUIBService`, `precisionAndFabrication`, main loop)

The week window of the source is fixed: `base = 2025-10-04` (a
Saturday, weekday 6), `daysUntilNextMon = (8-6)%7 = 2`, so
`start = 2025-10-06` and `end = 2025-10-12`, inclusive on both ends.
-/

/-- `monthFromQuery`: keyword detection mapping to a `2025-MM` month
string (empty string when nothing matches). -/
def monthFromQuery (q : Str) : Str :=
  let l := sToLower q
  if sContains l (str "oktober") || sContains l (str " okt ") || sContains l (str " 10") then
    str "2025-10"
  else if sContains l (str "november") || sContains l (str " nov ") || sContains l (str " 11") then
    str "2025-11"
  else if sContains l (str "desember") || sContains l (str " des ") || sContains l (str " 12") then
    str "2025-12"
  else []

/-- `strings.Split(s, "-")[1]` for the `2025-MM` strings produced by
`monthFromQuery`. -/
def secondDashField (s : Str) : Str :=
  ((s.dropWhile (· ≠ '-')).drop 1).takeWhile (· ≠ '-')

/-- Is the event's date inside the source's fixed next-week window
`[2025-10-06, 2025-10-12]`?  Unparsable dates are excluded. -/
def inNextWeekWindow (date : Str) : Bool :=
  match parseDate date with
  | none => false
  | some d => 20251006 ≤ dkey d && dkey d ≤ 20251012

/-- Is this a relative next-week query (`minggu depan` / `pekan
depan`)? -/
def isWeekQuery (q : Str) : Bool :=
  sContains (sToLower q) (str "minggu depan") || sContains (sToLower q) (str "pekan depan")

/-- `predictedTitles`: titles of catalog events whose lowercased,
non-empty title occurs in the lowercased response. -/
def predictedTitles (cat : EventsCatalog) (resp : Str) : Finset Str :=
  let respL := sToLower resp
  (((getAllEvents cat).filter (fun ev =>
      sToLower ev.title ≠ [] && sContains respL (sToLower ev.title))).map
    (fun ev => ev.title)).toFinset

/-- Go map assignment `m[k] = v` on an association list. -/
def insertAssoc (m : List (Str × Str)) (k v : Str) : List (Str × Str) :=
  if m.any (fun p => p.1 = k) then m.map (fun p => if p.1 = k then (k, v) else p)
  else m ++ [(k, v)]

/-- `buildTitleToIDMap`: lowercased title → event ID (later events
overwrite earlier ones with the same lowercased title). -/
def buildTitleToIDMap (cat : EventsCatalog) : List (Str × Str) :=
  (getAllEvents cat).foldl (fun m ev =>
    let tl := sToLower ev.title
    if tl ≠ [] then insertAssoc m tl ev.id else m) []

/-- `predictedIDsFromResponse`: IDs of map entries whose title occurs
in the lowercased response (the service argument is unused, as in the
source). -/
def predictedIDsFromResponse (_cat : EventsCatalog) (resp : Str)
    (title2id : List (Str × Str)) : Finset Str :=
  let respL := sToLower resp
  ((title2id.filter (fun p => p.1 ≠ [] && sContains respL p.1)).map
    (fun p => p.2)).toFinset

/-- `relevantTitles`: relevant titles for a query; week queries filter
by the fixed window and return immediately (no month fallback); other
queries fall back to the month list when the set is empty. -/
def relevantTitles (cat : EventsCatalog) (now : CalDate) (q : Str) : Finset Str :=
  let events := getRelevantEventsForQuery cat now q
  if isWeekQuery q then
    ((events.filter (fun ev => inNextWeekWindow ev.date)).map (fun ev => ev.title)).toFinset
  else
    let relSet := (events.map (fun ev => ev.title)).toFinset
    if relSet = ∅ then
      if monthFromQuery q ≠ [] then
        ((getEventsByMonth cat (secondDashField (monthFromQuery q))).map
          (fun ev => ev.title)).toFinset
      else ∅
    else relSet

/-- `containsAllTitles`: number of non-empty titles contained in the
lowercased response (the `hit` return value). -/
def titleHits (resp : Str) (titles : List Str) : ℕ :=
  (titles.filter (fun t => t ≠ [] && sContains (sToLower resp) (sToLower t))).length

/-- Coverage computed by `evalWithUIBService`: relevant titles (week
filtering, then month fallback when empty), `0` with a
"no-ground-truth" note when no titles remain, else `hit / len(titles)`. -/
def evalCoverage (cat : EventsCatalog) (now : CalDate) (q resp : Str) : ℚ :=
  let events := getRelevantEventsForQuery cat now q
  let titles0 :=
    if isWeekQuery q then
      (events.filter (fun ev => inNextWeekWindow ev.date)).map (fun ev => ev.title)
    else events.map (fun ev => ev.title)
  let titles :=
    if titles0 = [] then
      if monthFromQuery q ≠ [] then
        (getEventsByMonth cat (secondDashField (monthFromQuery q))).map (fun ev => ev.title)
      else []
    else titles0
  if titles = [] then 0
  else (titleHits resp titles : ℚ) / (titles.length : ℚ)

/-- Delimiters of the e-mail tokenizer `extractEmailsUIB`. -/
def emailDelims (c : Char) : Bool :=
  c = ' ' || c = '\n' || c = '\t' || c = ',' || c = ';' || c = ')' || c = '('

/-- Cutset trimmed from both ends of an extracted e-mail token. -/
def emailCutset : Str := str ".,;:()[]{}\n\t"

/-- `extractEmailsUIB`: whitespace/punctuation tokens of the lowercased
response containing `@uib.ac.id`, trimmed. -/
def extractEmailsUIB (resp : Str) : List Str :=
  ((fieldsBy emailDelims (sToLower resp)).filter
      (fun tok => sContains tok (str "@uib.ac.id"))).map (sTrimCut emailCutset)

/-- `containsURL`: any `http://` or `https://` token in the lowercased
response. -/
def containsURL (resp : Str) : Bool :=
  sContains (sToLower resp) (str "http://") || sContains (sToLower resp) (str "https://")

/-- `f1Score`: harmonic mean, defined as `0` when `P + R = 0`. -/
def f1Score (p r : ℚ) : ℚ :=
  if p + r = 0 then 0 else 2 * (p * r) / (p + r)

/-- Return record of `precisionAndFabrication`. -/
structure PrecisionFabrication where
  precision : ℚ
  usedPlaceholder : Bool
  fabContact : Bool
  fabLink : Bool
  deriving DecidableEq

/-- `precisionAndFabrication`: title-based precision, placeholder flag,
contact fabrication against the allowlist of relevant contacts, and the
unconditional URL-presence link flag. -/
def precisionAndFabrication (cat : EventsCatalog) (now : CalDate) (q resp : Str) :
    PrecisionFabrication :=
  let predSet := predictedTitles cat resp
  let relSet := relevantTitles cat now q
  let tp := (predSet ∩ relSet).card
  let predN := predSet.card
  let precision : ℚ := if predN = 0 then 1 else (tp : ℚ) / (predN : ℚ)
  let respL := sToLower resp
  let usedPlaceholder := sContains respL (str "tautan tidak tersedia dalam data")
  let emails := extractEmailsUIB resp
  let allowed : Finset Str :=
    (((getRelevantEventsForQuery cat now q).filter
        (fun ev => sTrimSpace ev.contact ≠ [])).map
      (fun ev => sToLower (sTrimSpace ev.contact))).toFinset
  let fabContact := emails.any (fun e => decide (e ∉ allowed))
  let fabLink := containsURL resp
  ⟨precision, usedPlaceholder, fabContact, fabLink⟩

/-- One abtest result (the fields the scorer reads). -/
structure ResultItem where
  query : Str
  mode : Str
  response : Str
  relevantEventIDs : List Str
  deriving DecidableEq

/-- The scorer's per-record row (the source row also carries `FormatOK`
and `Notes` from the format-compliance checker, which no claim below
reads; they are omitted). -/
structure ScoreRow where
  query : Str
  mode : Str
  coverage : ℚ
  precision : ℚ
  f1 : ℚ
  fabContact : Bool
  fabLink : Bool
  usedPlaceholder : Bool
  deriving DecidableEq

/-- Body of the scorer's main loop for one result: title-based
coverage/precision/F1, overridden by ID-based recall (and an F1
recomputed from the title-based precision) when the record carries
non-empty `relevant_event_ids`. -/
def scoreRecord (cat : EventsCatalog) (now : CalDate) (r : ResultItem) : ScoreRow :=
  let cov0 := evalCoverage cat now r.query r.response
  let pf := precisionAndFabrication cat now r.query r.response
  let f10 := f1Score pf.precision cov0
  let covF1 : ℚ × ℚ :=
    if r.relevantEventIDs ≠ [] then
      let predIDs := predictedIDsFromResponse cat r.response (buildTitleToIDMap cat)
      let relSet := ((r.relevantEventIDs.map sTrimSpace).filter (· ≠ [])).toFinset
      let tp := (predIDs ∩ relSet).card
      if 0 < relSet.card then
        ((tp : ℚ) / (relSet.card : ℚ), f1Score pf.precision ((tp : ℚ) / (relSet.card : ℚ)))
      else (cov0, f10)
    else (cov0, f10)
  ⟨r.query, r.mode, covF1.1, pf.precision, covF1.2, pf.fabContact, pf.fabLink,
   pf.usedPlaceholder⟩

/-!
## Theorems

Helper lemmas come first; each claim's theorem carries a doc comment
naming the claim.
-/

/-- Swapping the two fail vectors swaps the discordant counts. -/
theorem mcnemarCounts_swap (x y : List Bool) :
    mcnemarCounts y x = ((mcnemarCounts x y).2, (mcnemarCounts x y).1) := by
  simp only [mcnemarCounts, ← List.zip_swap x y, List.countP_map]
  refine Prod.ext ?_ ?_ <;>
    · apply List.countP_congr
      rintro ⟨a1, a2⟩ _
      cases a1 <;> cases a2 <;> rfl

/-- C1.  The Wilcoxon implementation's two-sided p-value is broken: at
`baseline = [0,1]`, `engineered = [1,0]` the differences are `[1,-1]`,
both ranked `3/2`, so `W+ = 3/2 = μ` and `z = 0`; the code then reports
`p = 2·(1 - |Φ(0) - 0.5|·2) = 2`, not the claimed two-sided value
`2·(1 - Φ(|z|)) = 1` (for every `z` the code returns twice the
two-sided p).  Only `Φ(0) = 1/2` — a defining property of the standard
normal CDF — is assumed. -/
theorem wilcoxon_p_at_z_zero (Φ : ℝ → ℝ) (hΦ : Φ 0 = 1/2) :
    (wilcoxonSignedRank Φ [0, 1] [1, 0]).p = 2 ∧
    (wilcoxonSignedRank Φ [0, 1] [1, 0]).z = 0 ∧
    (wilcoxonSignedRank Φ [0, 1] [1, 0]).p ≠
      2 * (1 - Φ |(wilcoxonSignedRank Φ [0, 1] [1, 0]).z|) := by
  have hdiffs : ((([(0:ℚ), 1].zip [(1:ℚ), 0]).map (fun pr => pr.2 - pr.1)).filter
      (· ≠ 0)) = [1, -1] := by
    norm_num [List.zip, List.zipWith, List.filter]
  simp only [wilcoxonSignedRank, hdiffs]
  norm_num [List.countP, List.countP.go, hΦ]

/-- Witness for the C1 theorem at the concrete CDF `fun _ => 1/2`. -/
theorem wilcoxon_p_at_z_zero_witness :
    (wilcoxonSignedRank (fun _ => (1:ℝ)/2) [0, 1] [1, 0]).p = 2 :=
  (wilcoxon_p_at_z_zero (fun _ => (1:ℝ)/2) (by norm_num)).1

/-- C4 (counterexample).  With three discordant pairs each way
(`b = c = 3`) the code reports `χ² = (|0|-1)²/6 = 1/6`, not `0`: no
non-negative clamp to zero exists in the source. -/
theorem mcnemar_b_eq_c_counterexample :
    (mcnemarTest (fun _ => 1/2) [true, true, true, false, false, false]
        [false, false, false, true, true, true]).chi2 = 1/6 ∧ ((1:ℝ)/6 ≠ 0) := by
  have hc : mcnemarCounts [true, true, true, false, false, false]
      [false, false, false, true, true, true] = (3, 3) := by decide
  simp only [mcnemarTest, hc]
  norm_num

/-- C4 (amended).  For equal-length fail vectors: when `b = c` with
discordant pairs present the continuity-corrected statistic is
`χ² = 1/(b+c)` (the `(|b-c|-1)²` numerator is `1`, never clamped to
`0`); when `b + c = 0` the code returns `χ² = 0` and `p = 1`. -/
theorem mcnemar_equal_discordant (Φ : ℝ → ℝ) (x y : List Bool)
    (_h : x.length = y.length) :
    ((mcnemarTest Φ x y).b = (mcnemarTest Φ x y).c →
      (mcnemarTest Φ x y).b + (mcnemarTest Φ x y).c ≠ 0 →
      (mcnemarTest Φ x y).chi2 =
        1 / (((mcnemarTest Φ x y).b : ℝ) + ((mcnemarTest Φ x y).c : ℝ))) ∧
    ((mcnemarTest Φ x y).b + (mcnemarTest Φ x y).c = 0 →
      (mcnemarTest Φ x y).chi2 = 0 ∧ (mcnemarTest Φ x y).p = 1) := by
  rcases h0 : mcnemarCounts x y with ⟨b, c⟩
  simp only [mcnemarTest, h0]
  by_cases hbc : b + c = 0
  · rw [if_pos hbc]
    exact ⟨fun _ hne => absurd hbc hne, fun _ => ⟨rfl, rfl⟩⟩
  · rw [if_neg hbc]
    refine ⟨fun hb _ => ?_, fun hc => absurd hc hbc⟩
    dsimp only at hb ⊢
    subst hb
    rw [sub_self, abs_zero]
    norm_num

/-- Witness for the amended C4 theorem: `b = c = 1` gives
`χ² = 1/(b+c) = 1/2`. -/
theorem mcnemar_equal_discordant_witness :
    (mcnemarTest (fun _ => 1/2) [true, false] [false, true]).chi2 =
      1 / (((mcnemarTest (fun _ => 1/2) [true, false] [false, true]).b : ℝ) +
        ((mcnemarTest (fun _ => 1/2) [true, false] [false, true]).c : ℝ)) := by
  have hc : mcnemarCounts [true, false] [false, true] = (1, 1) := by decide
  refine (mcnemar_equal_discordant (fun _ => 1/2) [true, false] [false, true] rfl).1 ?_ ?_
  · simp [mcnemarTest, hc]
  · simp [mcnemarTest, hc]

/-- C9.  `mcnemarTest` is symmetric up to swapping the discordant
counts: exchanging the two fail vectors swaps `b` and `c` and leaves
`χ²` and `p` unchanged. -/
theorem mcnemar_swap (Φ : ℝ → ℝ) (x y : List Bool) (_h : x.length = y.length) :
    mcnemarTest Φ y x =
      ⟨(mcnemarTest Φ x y).c, (mcnemarTest Φ x y).b,
       (mcnemarTest Φ x y).chi2, (mcnemarTest Φ x y).p⟩ := by
  have hswap := mcnemarCounts_swap x y
  rcases h0 : mcnemarCounts x y with ⟨b, c⟩
  rw [h0] at hswap
  simp only [mcnemarTest, hswap, h0]
  by_cases hbc : b + c = 0
  · have hcb : c + b = 0 := by omega
    simp [hbc, hcb]
  · have hcb : ¬(c + b = 0) := by omega
    rw [if_neg hcb, if_neg hbc]
    have h1 : |(c : ℝ) - (b : ℝ)| = |(b : ℝ) - (c : ℝ)| := abs_sub_comm _ _
    have h2 : (c : ℝ) + (b : ℝ) = (b : ℝ) + (c : ℝ) := by ring
    simp [h1, h2]

/-- Witness for the C9 theorem on a concrete pair of fail vectors. -/
theorem mcnemar_swap_witness :
    mcnemarTest (fun _ => 1/2) [true, false] [false, false] =
      ⟨(mcnemarTest (fun _ => 1/2) [false, false] [true, false]).c,
       (mcnemarTest (fun _ => 1/2) [false, false] [true, false]).b,
       (mcnemarTest (fun _ => 1/2) [false, false] [true, false]).chi2,
       (mcnemarTest (fun _ => 1/2) [false, false] [true, false]).p⟩ :=
  mcnemar_swap (fun _ => 1/2) [false, false] [true, false] rfl

/-- A one-event catalog used by concrete counterexamples and
witnesses. -/
def exEvent : UIBEvent :=
  ⟨str "E1", str "alpha festival", str "webinar", str "2025-10-05",
   str "marketing", str "deskripsi", str "budi", str "humas@uib.ac.id"⟩

/-- The catalog holding just `exEvent` (in the October list). -/
def exCatalog : EventsCatalog := ⟨[exEvent], [], []⟩

/-- C3 (counterexample).  `GetRelevantEventsForQuery` is not
wall-clock independent: for the UIB-related query `"acara uib"`, which
matches no catalog field, the fallback returns the upcoming events
relative to `time.Now()`; run on 2025-10-01 it returns the 2025-10-05
event, run on 2025-12-31 it returns nothing. -/
theorem getRelevantEvents_wall_clock_dependent :
    getRelevantEventsForQuery exCatalog ⟨2025, 10, 1⟩ (str "acara uib") ≠
      getRelevantEventsForQuery exCatalog ⟨2025, 12, 31⟩ (str "acara uib") := by
  decide

/-- C3 (amended).  Outside the upcoming-events fallback —
whenever some catalog field matches the query, or the query is not
UIB-related — `GetRelevantEventsForQuery` is a pure function of
(query, catalog): its value is the same at every wall-clock time. -/
theorem getRelevantEvents_time_independent_when_matched (cat : EventsCatalog)
    (q : Str) (now1 now2 : CalDate)
    (h : (getAllEvents cat).filter (fun ev => isEventRelevantToQuery ev (sToLower q)) ≠ []
         ∨ analyzeQueryForUIB q = false) :
    getRelevantEventsForQuery cat now1 q = getRelevantEventsForQuery cat now2 q := by
  unfold getRelevantEventsForQuery
  rcases h with h | h
  · simp [h]
  · simp [h]

/-- Witness for the amended C3 theorem: the query `"alpha"` matches the
example event's title, so both runs return the same events. -/
theorem getRelevantEvents_time_independent_witness :
    getRelevantEventsForQuery exCatalog ⟨2025, 10, 1⟩ (str "alpha") =
      getRelevantEventsForQuery exCatalog ⟨2025, 12, 31⟩ (str "alpha") :=
  getRelevantEvents_time_independent_when_matched exCatalog (str "alpha")
    ⟨2025, 10, 1⟩ ⟨2025, 12, 31⟩ (Or.inl (by decide))

/-- C8 (amended).  The fabricated-link flag of a `ScoreRow` is set
exactly when the lowercased response contains an `http://` or
`https://` token; the canonical placeholder phrase does not exempt a
response from the flag (it only sets the separate `used_placeholder`
field). -/
theorem scoreRow_fabLink_iff_url (cat : EventsCatalog) (now : CalDate) (r : ResultItem) :
    (scoreRecord cat now r).fabLink =
      (sContains (sToLower r.response) (str "http://")
        || sContains (sToLower r.response) (str "https://")) := by
  simp only [scoreRecord, precisionAndFabrication, containsURL]

/-- C8 (counterexample).  A response that uses the canonical
placeholder phrase and also contains a URL is still flagged as link
fabrication (`fabLink` and `usedPlaceholder` are both set), contrary to
the claimed placeholder exception. -/
theorem scoreRow_fabLink_placeholder_counterexample :
    (scoreRecord exCatalog ⟨2025, 10, 4⟩
        ⟨str "q", str "baseline",
         str "tautan tidak tersedia dalam data https://contoh.id", []⟩).fabLink = true ∧
    (scoreRecord exCatalog ⟨2025, 10, 4⟩
        ⟨str "q", str "baseline",
         str "tautan tidak tersedia dalam data https://contoh.id", []⟩).usedPlaceholder =
      true := by
  constructor <;> decide

/-- Soundness of the rater-validation loop: whatever it reports names
one of the two expected raters together with a (query, mode) pair that
actually lacks a row from that rater. -/
theorem validateRaters_sound (rows : List RatingRow) (raterA raterB who q m : Str)
    (h : validateRaters rows raterA raterB = some (who, q, m)) :
    (who = raterA ∨ who = raterB) ∧ (q, m) ∈ keysOf rows ∧
      hasRater rows q m who = false := by
  obtain ⟨k, hkmem, hfk⟩ := List.exists_of_findSome?_eq_some h
  cases hA : hasRater rows k.1 k.2 raterA
  · simp only [hA, Bool.not_false, if_true, Option.some.injEq, Prod.mk.injEq] at hfk
    obtain ⟨rfl, rfl, rfl⟩ := hfk
    exact ⟨Or.inl rfl, by simpa using hkmem, hA⟩
  · cases hB : hasRater rows k.1 k.2 raterB
    · simp only [hA, hB, Bool.not_true, Bool.not_false, if_false, if_true,
        Option.some.injEq, Prod.mk.injEq] at hfk
      obtain ⟨rfl, rfl, rfl⟩ := hfk
      exact ⟨Or.inr rfl, by simpa using hkmem, hB⟩
    · simp [hA, hB] at hfk

/-- Completeness of the rater-validation loop: a (query, mode) pair
lacking one of the two expected raters makes it report something. -/
theorem validateRaters_complete (rows : List RatingRow) (raterA raterB q m : Str)
    (hk : (q, m) ∈ keysOf rows)
    (hmiss : hasRater rows q m raterA = false ∨ hasRater rows q m raterB = false) :
    ∃ e, validateRaters rows raterA raterB = some e := by
  rcases he : validateRaters rows raterA raterB with _ | e
  · exfalso
    rw [validateRaters, List.findSome?_eq_none_iff] at he
    have hthis := he (q, m) hk
    rcases hmiss with hm | hm
    · simp [hm] at hthis
    · cases hA : hasRater rows q m raterA <;> simp [hA, hm] at hthis
  · exact ⟨e, rfl⟩

/-- C5.  If some (query, mode) pair of the rating set lacks a rating
from one of the two expected raters, the IRR pipeline aborts with an
error naming a missing rater (one of the two expected ones) and a
(query, mode) pair that genuinely lacks that rater; no aggregate is
produced. -/
theorem irrPipeline_missing_rater_aborts (rows : List RatingRow)
    (raterA raterB q m : Str) (hk : (q, m) ∈ keysOf rows)
    (hmiss : hasRater rows q m raterA = false ∨ hasRater rows q m raterB = false) :
    ∃ who q' m', irrPipeline rows raterA raterB = .error (who, q', m') ∧
      (who = raterA ∨ who = raterB) ∧ (q', m') ∈ keysOf rows ∧
      hasRater rows q' m' who = false := by
  obtain ⟨e, he⟩ := validateRaters_complete rows raterA raterB q m hk hmiss
  rcases e with ⟨who, q', m'⟩
  obtain ⟨hw, hkm, hmw⟩ := validateRaters_sound rows raterA raterB who q' m' he
  exact ⟨who, q', m', by simp [irrPipeline, he], hw, hkm, hmw⟩

/-- Witness for the C5 theorem: one row rated only by `A` makes the
pipeline abort with a missing-rater error. -/
theorem irrPipeline_missing_rater_witness :
    ∃ who q' m',
      irrPipeline [⟨str "q1", str "baseline", str "A", 3, 1, 3, 3, 1⟩]
          (str "A") (str "B") = .error (who, q', m') ∧
        (who = str "A" ∨ who = str "B") ∧
        (q', m') ∈ keysOf [⟨str "q1", str "baseline", str "A", 3, 1, 3, 3, 1⟩] ∧
        hasRater [⟨str "q1", str "baseline", str "A", 3, 1, 3, 3, 1⟩] q' m' who = false :=
  irrPipeline_missing_rater_aborts _ (str "A") (str "B") (str "q1") (str "baseline")
    (by decide) (Or.inr (by decide))

/-- The three Likert-scale columns. -/
def likertCols : List Str := [str "relevance", str "completeness", str "usefulness"]

/-- The two binary columns. -/
def binaryCols : List Str := [str "accuracy", str "json_valid"]

/-- `parseIntCell` succeeds only on a non-empty cell that `Atoi`
parses to exactly the returned value. -/
theorem parseIntCell_ok (header line : List Str) (col : Str) (v : ℤ)
    (h : parseIntCell header line col = .ok v) :
    getCell header line col ≠ [] ∧ atoi (getCell header line col) = some v := by
  unfold parseIntCell at h
  by_cases h0 : getCell header line col = []
  · simp [h0] at h
  · refine ⟨h0, ?_⟩
    rcases ha : atoi (getCell header line col) with _ | iv
    · simp [h0, ha] at h
    · simp only [h0, ha, if_neg h0] at h
      cases h
      rfl

/-- A successfully parsed (non-blank) row has all required cells
non-empty, Likert cells in `[1,5]`, and binary cells in `{0,1}`. -/
theorem parseRow_ok_shape (header line : List Str) (row : RatingRow)
    (h : parseRow header line = .ok row) :
    (∀ col ∈ requiredCols, getCell header line col ≠ []) ∧
    (∀ col ∈ likertCols, ∀ v : ℤ, atoi (getCell header line col) = some v →
      1 ≤ v ∧ v ≤ 5) ∧
    (∀ col ∈ binaryCols, ∀ v : ℤ, atoi (getCell header line col) = some v →
      v = 0 ∨ v = 1) := by
  unfold parseRow at h
  by_cases h1 : getCell header line (str "query") = [] ∨
      getCell header line (str "mode") = [] ∨ getCell header line (str "rater") = []
  · rw [if_pos h1] at h
    cases h
  rw [if_neg h1] at h
  push_neg at h1
  obtain ⟨hq, hm, hrt⟩ := h1
  cases hrel : parseIntCell header line (str "relevance") with
  | error e => simp [hrel] at h
  | ok rel =>
  cases hacc : parseIntCell header line (str "accuracy") with
  | error e => simp [hrel, hacc] at h
  | ok acc =>
  cases hcomp : parseIntCell header line (str "completeness") with
  | error e => simp [hrel, hacc, hcomp] at h
  | ok comp =>
  cases husef : parseIntCell header line (str "usefulness") with
  | error e => simp [hrel, hacc, hcomp, husef] at h
  | ok usef =>
  cases hjs : parseIntCell header line (str "json_valid") with
  | error e => simp [hrel, hacc, hcomp, husef, hjs] at h
  | ok js =>
  simp only [hrel, hacc, hcomp, husef, hjs] at h
  by_cases h2 : rel < 1 ∨ 5 < rel ∨ comp < 1 ∨ 5 < comp ∨ usef < 1 ∨ 5 < usef
  · rw [if_pos h2] at h
    cases h
  rw [if_neg h2] at h
  by_cases h3 : ¬(acc = 0 ∨ acc = 1) ∨ ¬(js = 0 ∨ js = 1)
  · rw [if_pos h3] at h
    cases h
  rw [if_neg h3] at h
  push_neg at h2 h3
  obtain ⟨hrel2, hacc2⟩ := parseIntCell_ok header line (str "relevance") rel hrel
  obtain ⟨hacc1, hacc3⟩ := parseIntCell_ok header line (str "accuracy") acc hacc
  obtain ⟨hcomp1, hcomp2⟩ := parseIntCell_ok header line (str "completeness") comp hcomp
  obtain ⟨husef1, husef2⟩ := parseIntCell_ok header line (str "usefulness") usef husef
  obtain ⟨hjs1, hjs2⟩ := parseIntCell_ok header line (str "json_valid") js hjs
  refine ⟨?_, ?_, ?_⟩
  · intro col hcol
    simp only [requiredCols, List.mem_cons, List.not_mem_nil, or_false] at hcol
    rcases hcol with rfl | rfl | rfl | rfl | rfl | rfl | rfl | rfl
    exacts [hq, hm, hrt, hrel2, hacc1, hcomp1, husef1, hjs1]
  · intro col hcol v hv
    simp only [likertCols, List.mem_cons, List.not_mem_nil, or_false] at hcol
    rcases hcol with rfl | rfl | rfl
    · rw [hacc2] at hv
      cases hv
      omega
    · rw [hcomp2] at hv
      cases hv
      omega
    · rw [husef2] at hv
      cases hv
      omega
  · intro col hcol v hv
    simp only [binaryCols, List.mem_cons, List.not_mem_nil, or_false] at hcol
    rcases hcol with rfl | rfl
    · rw [hacc3] at hv
      cases hv
      tauto
    · rw [hjs2] at hv
      cases hv
      tauto

/-- Every line of a successfully parsed data section is blank or parses
to a row. -/
theorem parseRows_ok_all (header : List Str) (data : List (List Str))
    (out : List RatingRow) (h : parseRows header data = .ok out) :
    ∀ line ∈ data, isBlankRow line = true ∨ ∃ row, parseRow header line = .ok row := by
  induction data generalizing out with
  | nil => simp
  | cons l rest ih =>
    intro line hline
    simp only [parseRows] at h
    by_cases hb : isBlankRow l
    · rw [if_pos hb] at h
      rcases List.mem_cons.mp hline with rfl | hmem
      · exact Or.inl hb
      · exact ih out h line hmem
    · rw [if_neg hb] at h
      cases hpr : parseRow header l with
      | error e => simp [hpr] at h
      | ok row =>
      simp only [hpr] at h
      cases hrest : parseRows header rest with
      | error e => simp [hrest] at h
      | ok out2 =>
      rcases List.mem_cons.mp hline with rfl | hmem
      · exact Or.inr ⟨row, hpr⟩
      · exact ih out2 hrest line hmem

/-- A blank line anywhere in the data section is skipped: the parse of
the file with the line equals the parse without it. -/
theorem parseRows_skip_blank (header : List Str) (pre post : List (List Str))
    (bl : List Str) (hbl : isBlankRow bl = true) :
    parseRows header (pre ++ bl :: post) = parseRows header (pre ++ post) := by
  induction pre with
  | nil => simp only [List.nil_append, parseRows, hbl, if_true]
  | cons p rest ih => simp only [List.cons_append, parseRows, List.append_eq, ih]

/-- A line all of whose cells are empty is blank. -/
theorem isBlankRow_of_all_empty (line : List Str) (h : ∀ cell ∈ line, cell = []) :
    isBlankRow line = true := by
  have hf : line.flatten = [] := List.flatten_eq_nil_iff.mpr h
  simp [isBlankRow, hf, sTrimSpace]

/-- A data line that is not blank and has an empty required cell, an
out-of-range Likert value, or a non-binary flag value makes the whole
parse fail (helper shared by the fail-closed and blank-skip claims). -/
theorem parseCSV_error_of_bad_line (header : List Str) (data : List (List Str))
    (line : List Str) (hline : line ∈ data) (hnb : isBlankRow line = false)
    (hbad : (∃ col ∈ requiredCols, getCell header line col = []) ∨
      (∃ col ∈ likertCols, ∃ v : ℤ, atoi (getCell header line col) = some v ∧
        (v < 1 ∨ 5 < v)) ∨
      (∃ col ∈ binaryCols, ∃ v : ℤ, atoi (getCell header line col) = some v ∧
        v ≠ 0 ∧ v ≠ 1)) :
    ∃ e, parseRatingsCSV (header :: data) = .error e := by
  rcases hh : headerCheck header with e | u
  · exact ⟨e, by simp [parseRatingsCSV, hh]⟩
  rcases hp : parseRows header data with e | out
  · exact ⟨e, by simp [parseRatingsCSV, hh, hp]⟩
  exfalso
  rcases parseRows_ok_all header data out hp line hline with hb | ⟨row, hrow⟩
  · rw [hb] at hnb
    cases hnb
  obtain ⟨hcells, hlik, hbin⟩ := parseRow_ok_shape header line row hrow
  rcases hbad with ⟨col, hcol, hempty⟩ | ⟨col, hcol, v, hv, hrange⟩ |
    ⟨col, hcol, v, hv, h0, h1⟩
  · exact hcells col hcol hempty
  · have := hlik col hcol v hv
    omega
  · rcases hbin col hcol v hv with rfl | rfl
    · exact h0 rfl
    · exact h1 rfl

/-- C6 (amended).  If any data row that is not entirely blank has an
empty required cell, a Likert value parsed outside `[1,5]`, or a
binary value parsed outside `{0,1}`, then `parseRatingsCSV` returns an
error, so no row of the file is accepted (entirely blank rows are
silently skipped instead — see the counterexample). -/
theorem parseRatingsCSV_fail_closed (header : List Str) (data : List (List Str))
    (line : List Str) (hline : line ∈ data) (hnb : isBlankRow line = false)
    (hbad : (∃ col ∈ requiredCols, getCell header line col = []) ∨
      (∃ col ∈ likertCols, ∃ v : ℤ, atoi (getCell header line col) = some v ∧
        (v < 1 ∨ 5 < v)) ∨
      (∃ col ∈ binaryCols, ∃ v : ℤ, atoi (getCell header line col) = some v ∧
        v ≠ 0 ∧ v ≠ 1)) :
    ∃ e, parseRatingsCSV (header :: data) = .error e :=
  parseCSV_error_of_bad_line header data line hline hnb hbad

/-- Witness for the C6 theorem: a Likert value `9` aborts the import. -/
theorem parseRatingsCSV_fail_closed_witness :
    ∃ e, parseRatingsCSV
        [requiredCols,
         [str "q2", str "baseline", str "A", str "9", str "1", str "3", str "3", str "0"]] =
      .error e :=
  parseRatingsCSV_fail_closed requiredCols
    [[str "q2", str "baseline", str "A", str "9", str "1", str "3", str "3", str "0"]]
    [str "q2", str "baseline", str "A", str "9", str "1", str "3", str "3", str "0"]
    (by decide) (by decide)
    (Or.inr (Or.inl ⟨str "relevance", by decide, 9, by decide, by omega⟩))

/-- C6 (counterexample).  A fully blank data row — every required cell
empty — is skipped, not rejected: the import succeeds and accepts the
other rows, contradicting the claim that any empty required cell
aborts the import. -/
theorem parseRatingsCSV_blank_row_counterexample :
    parseRatingsCSV
        [requiredCols,
         [str "q1", str "baseline", str "A", str "3", str "1", str "4", str "5", str "0"],
         [[], [], [], [], [], [], [], []]] =
      .ok [⟨str "q1", str "baseline", str "A", 3, 1, 4, 5, 0⟩] ∧
    ([[], [], [], [], [], [], [], []] : List Str) ∈
      [[str "q1", str "baseline", str "A", str "3", str "1", str "4", str "5", str "0"],
       ([[], [], [], [], [], [], [], []] : List Str)] ∧
    getCell requiredCols [[], [], [], [], [], [], [], []] (str "query") = [] :=
  ⟨rfl, by decide, rfl⟩

/-- C10.  A data row all of whose cells are empty is silently skipped
(removing it does not change the parse), while a non-blank row with an
empty required cell aborts the import with an error. -/
theorem parseRatingsCSV_blank_skip_incomplete_abort (header : List Str)
    (pre post : List (List Str)) (bl inc : List Str)
    (hbl : ∀ cell ∈ bl, cell = [])
    (hnb : isBlankRow inc = false)
    (hcell : ∃ col ∈ requiredCols, getCell header inc col = []) :
    parseRatingsCSV (header :: (pre ++ bl :: post)) =
      parseRatingsCSV (header :: (pre ++ post)) ∧
    ∃ e, parseRatingsCSV (header :: (pre ++ inc :: post)) = .error e := by
  constructor
  · have hb := isBlankRow_of_all_empty bl hbl
    simp only [parseRatingsCSV]
    cases hh : headerCheck header with
    | error e => rfl
    | ok u => exact parseRows_skip_blank header pre post bl hb
  · exact parseCSV_error_of_bad_line header (pre ++ inc :: post) inc
      (by simp) hnb (Or.inl hcell)

/-- Witness for the C10 theorem on a concrete file: the blank row is
dropped and the half-filled row aborts. -/
theorem parseRatingsCSV_blank_skip_incomplete_abort_witness :
    parseRatingsCSV
        [requiredCols,
         [str "q1", str "baseline", str "A", str "3", str "1", str "4", str "5", str "0"],
         [[], [], [], [], [], [], [], []]] =
      parseRatingsCSV
        [requiredCols,
         [str "q1", str "baseline", str "A", str "3", str "1", str "4", str "5", str "0"]] ∧
    ∃ e, parseRatingsCSV
        [requiredCols,
         [str "q1", str "baseline", str "A", str "3", str "1", str "4", str "5", str "0"],
         [str "q2", [], [], [], [], [], [], []]] = .error e :=
  parseRatingsCSV_blank_skip_incomplete_abort requiredCols
    [[str "q1", str "baseline", str "A", str "3", str "1", str "4", str "5", str "0"]]
    [] [[], [], [], [], [], [], [], []] [str "q2", [], [], [], [], [], [], []]
    (by decide) (by decide) ⟨str "mode", by decide, by decide⟩

/-- `findIdx?` returns the unique index satisfying the predicate. -/
theorem findIdx?_eq_some_of_unique {α : Type} (p : α → Bool) (l : List α) (j : ℕ)
    (d : α) (hj : j < l.length) (hpj : p (l.getD j d) = true)
    (hlt : ∀ i, i < l.length → p (l.getD i d) = true → i = j) :
    l.findIdx? p = some j := by
  induction l generalizing j with
  | nil => cases hj
  | cons a t ih =>
    rw [List.findIdx?_cons]
    by_cases hpa : p a = true
    · rw [if_pos hpa]
      have h0 := hlt 0 (by simp) (by simpa using hpa)
      simp [← h0]
    · rw [if_neg hpa]
      cases j with
      | zero => exact absurd (by simpa using hpj) hpa
      | succ j2 =>
        have hj2 : j2 < t.length := by simpa [Nat.succ_lt_succ_iff] using hj
        have hpj2 : p (t.getD j2 d) = true := by simpa using hpj
        have hlt2 : ∀ i, i < t.length → p (t.getD i d) = true → i = j2 := by
          intro i hi hpi
          have hs := hlt (i + 1) (by simpa [Nat.succ_lt_succ_iff] using hi)
            (by simpa using hpi)
          omega
        rw [List.findIdx?_succ, ih j2 hj2 hpj2 hlt2]
        rfl

/-- Distinctness of the required column names under the header
matcher: a canonical cell matches a canonical name only at its own
position. -/
theorem eqFold_requiredCols :
    ∀ m k : Fin 8,
      eqFold (requiredCols.getD m.val []) (requiredCols.getD k.val []) = decide (m = k) := by
  decide

/-- Column lookup of a canonical name in the canonical header. -/
theorem idx_requiredCols_self :
    ∀ k : Fin 8, idx requiredCols (requiredCols.getD k.val []) = some k.val := by
  decide

/-- `permLine` always yields 8 cells. -/
theorem permLine_length (σ : Equiv.Perm (Fin 8)) (line : List Str) :
    (permLine σ line).length = 8 := by
  simp [permLine]

/-- The cell of a permuted record at position `j` is the original cell
at position `σ j`. -/
theorem permLine_getD (σ : Equiv.Perm (Fin 8)) (line : List Str) (j : ℕ) (hj : j < 8) :
    (permLine σ line).getD j [] = line.getD (σ ⟨j, hj⟩).val [] := by
  have h8 : j < (List.finRange 8).length := by simpa using hj
  rw [permLine, List.getD_eq_getElem?_getD, List.getElem?_map,
    List.getElem?_eq_getElem h8]
  simp only [List.getElem_finRange, Option.map_some', Option.getD_some]
  rfl

/-- Column lookup in a permuted canonical header: the canonical column
`k` sits at position `σ⁻¹ k`. -/
theorem idx_permLine_requiredCols (σ : Equiv.Perm (Fin 8)) (k : Fin 8) :
    idx (permLine σ requiredCols) (requiredCols.getD k.val []) =
      some ((σ.symm k).val) := by
  unfold idx
  have hj : ((σ.symm k).val : ℕ) < (permLine σ requiredCols).length := by
    rw [permLine_length]
    exact (σ.symm k).isLt
  apply findIdx?_eq_some_of_unique _ _ _ [] hj
  · rw [permLine_getD σ requiredCols (σ.symm k).val (σ.symm k).isLt]
    rw [Fin.eta, σ.apply_symm_apply]
    have := eqFold_requiredCols k k
    simpa using this
  · intro i hi hpi
    have hi8 : i < 8 := by
      rw [permLine_length] at hi
      exact hi
    rw [permLine_getD σ requiredCols i hi8] at hpi
    rw [eqFold_requiredCols (σ ⟨i, hi8⟩) k] at hpi
    have heq : σ ⟨i, hi8⟩ = k := of_decide_eq_true hpi
    have hfe : (⟨i, hi8⟩ : Fin 8) = σ.symm k := by
      rw [← heq, σ.symm_apply_apply]
    exact congrArg Fin.val hfe

/-- Cells addressed through the permuted header and the permuted
record coincide with the canonical ones. -/
theorem getCell_permLine (σ : Equiv.Perm (Fin 8)) (line : List Str)
    (hlen : line.length = 8) (k : Fin 8) :
    getCell (permLine σ requiredCols) (permLine σ line) (requiredCols.getD k.val []) =
      getCell requiredCols line (requiredCols.getD k.val []) := by
  unfold getCell
  rw [idx_permLine_requiredCols σ k, idx_requiredCols_self k]
  dsimp only
  have h1 : ((σ.symm k).val : ℕ) < (permLine σ line).length := by
    rw [permLine_length]
    exact (σ.symm k).isLt
  have h2 : (k.val : ℕ) < line.length := by
    rw [hlen]
    exact k.isLt
  rw [if_pos h1, if_pos h2]
  rw [permLine_getD σ line (σ.symm k).val (σ.symm k).isLt]
  rw [Fin.eta, σ.apply_symm_apply]

/-- A string trims to empty exactly when all its characters are
whitespace. -/
theorem sTrimSpace_eq_nil_iff (s : Str) :
    sTrimSpace s = [] ↔ ∀ c ∈ s, isSpaceChar c = true := by
  unfold sTrimSpace
  rw [List.reverse_eq_nil_iff, List.dropWhile_eq_nil_iff]
  simp only [List.mem_reverse]
  constructor
  · intro h c hc
    have hsplit := List.takeWhile_append_dropWhile (p := isSpaceChar) (l := s)
    rcases List.mem_append.mp (hsplit ▸ hc) with h1 | h2
    · exact List.mem_takeWhile_imp h1
    · exact h c h2
  · intro h c hc
    have hsplit := List.takeWhile_append_dropWhile (p := isSpaceChar) (l := s)
    exact h c (hsplit ▸ List.mem_append.mpr (Or.inr hc))

/-- Permuting the cells of an 8-cell record does not change its cell
set. -/
theorem mem_permLine (σ : Equiv.Perm (Fin 8)) (line : List Str)
    (hlen : line.length = 8) (cell : Str) :
    cell ∈ permLine σ line ↔ cell ∈ line := by
  simp only [permLine, List.mem_map, List.mem_finRange, true_and]
  constructor
  · rintro ⟨i, rfl⟩
    have hlt : (σ i).val < line.length := by
      rw [hlen]
      exact (σ i).isLt
    rw [List.getD_eq_getElem?_getD, List.getElem?_eq_getElem hlt, Option.getD_some]
    exact List.getElem_mem hlt
  · intro hc
    obtain ⟨n, hn, hcell⟩ := List.getElem_of_mem hc
    have hn8 : n < 8 := by omega
    refine ⟨σ.symm ⟨n, hn8⟩, ?_⟩
    rw [σ.apply_symm_apply]
    rw [List.getD_eq_getElem?_getD, List.getElem?_eq_getElem hn, Option.getD_some]
    exact hcell

/-- Blankness of a record is invariant under cell permutation. -/
theorem isBlankRow_permLine (σ : Equiv.Perm (Fin 8)) (line : List Str)
    (hlen : line.length = 8) :
    isBlankRow (permLine σ line) = isBlankRow line := by
  have hiff : (sTrimSpace (permLine σ line).flatten = []) ↔
      (sTrimSpace line.flatten = []) := by
    rw [sTrimSpace_eq_nil_iff, sTrimSpace_eq_nil_iff]
    constructor
    · intro h c hc
      obtain ⟨cell, hcellmem, hcmem⟩ := List.mem_flatten.mp hc
      exact h c (List.mem_flatten.mpr ⟨cell, (mem_permLine σ line hlen cell).mpr hcellmem, hcmem⟩)
    · intro h c hc
      obtain ⟨cell, hcellmem, hcmem⟩ := List.mem_flatten.mp hc
      exact h c (List.mem_flatten.mpr ⟨cell, (mem_permLine σ line hlen cell).mp hcellmem, hcmem⟩)
  unfold isBlankRow
  by_cases h : sTrimSpace line.flatten = []
  · simp [h, hiff.mpr h]
  · have h2 : ¬sTrimSpace (permLine σ line).flatten = [] := fun hh => h (hiff.mp hh)
    have e1 : (sTrimSpace (permLine σ line).flatten).isEmpty = false :=
      List.isEmpty_eq_false.mpr h2
    have e2 : (sTrimSpace line.flatten).isEmpty = false := List.isEmpty_eq_false.mpr h
    have e0 : ∀ u : Str, (u == ([] : Str)) = u.isEmpty := by
      intro u
      cases u <;> rfl
    simp only [e0, e1, e2]

/-- Row parsing is invariant under a consistent cell/header
permutation. -/
theorem parseRow_permLine (σ : Equiv.Perm (Fin 8)) (line : List Str)
    (hlen : line.length = 8) :
    parseRow (permLine σ requiredCols) (permLine σ line) = parseRow requiredCols line := by
  have g0 : getCell (permLine σ requiredCols) (permLine σ line) (str "query") =
      getCell requiredCols line (str "query") := getCell_permLine σ line hlen 0
  have g1 : getCell (permLine σ requiredCols) (permLine σ line) (str "mode") =
      getCell requiredCols line (str "mode") := getCell_permLine σ line hlen 1
  have g2 : getCell (permLine σ requiredCols) (permLine σ line) (str "rater") =
      getCell requiredCols line (str "rater") := getCell_permLine σ line hlen 2
  have g3 : getCell (permLine σ requiredCols) (permLine σ line) (str "relevance") =
      getCell requiredCols line (str "relevance") := getCell_permLine σ line hlen 3
  have g4 : getCell (permLine σ requiredCols) (permLine σ line) (str "accuracy") =
      getCell requiredCols line (str "accuracy") := getCell_permLine σ line hlen 4
  have g5 : getCell (permLine σ requiredCols) (permLine σ line) (str "completeness") =
      getCell requiredCols line (str "completeness") := getCell_permLine σ line hlen 5
  have g6 : getCell (permLine σ requiredCols) (permLine σ line) (str "usefulness") =
      getCell requiredCols line (str "usefulness") := getCell_permLine σ line hlen 6
  have g7 : getCell (permLine σ requiredCols) (permLine σ line) (str "json_valid") =
      getCell requiredCols line (str "json_valid") := getCell_permLine σ line hlen 7
  simp only [parseRow, parseIntCell, g0, g1, g2, g3, g4, g5, g6, g7]

/-- Data-section parsing is invariant under a consistent permutation of
all records. -/
theorem parseRows_permLine (σ : Equiv.Perm (Fin 8)) (data : List (List Str))
    (hlen : ∀ l ∈ data, l.length = 8) :
    parseRows (permLine σ requiredCols) (data.map (permLine σ)) =
      parseRows requiredCols data := by
  induction data with
  | nil => rfl
  | cons l rest ih =>
    have hl : l.length = 8 := hlen l (by simp)
    have hrest : ∀ x ∈ rest, x.length = 8 := fun x hx => hlen x (by simp [hx])
    simp only [List.map_cons, parseRows, isBlankRow_permLine σ l hl,
      parseRow_permLine σ l hl, ih hrest]

/-- A canonical header permuted with the first column fixed passes the
header validation. -/
theorem headerCheck_permLine (σ : Equiv.Perm (Fin 8)) (hσ : σ 0 = 0) :
    headerCheck (permLine σ requiredCols) = .ok () := by
  have hfirst : (permLine σ requiredCols).getD 0 [] = str "query" := by
    rw [permLine_getD σ requiredCols 0 (by omega)]
    have h00 : σ ⟨0, by omega⟩ = 0 := hσ
    rw [h00]
    rfl
  unfold headerCheck
  rw [if_neg]
  · have hfind : requiredCols.find? (fun c => (idx (permLine σ requiredCols) c).isNone) =
        none := by
      rw [List.find?_eq_none]
      intro c hc
      obtain ⟨n, hn, hcell⟩ := List.getElem_of_mem hc
      have hrl : requiredCols.length = 8 := rfl
      have hn8 : n < 8 := by omega
      have : c = requiredCols.getD (⟨n, hn8⟩ : Fin 8).val [] := by
        rw [List.getD_eq_getElem?_getD, List.getElem?_eq_getElem hn, Option.getD_some]
        exact hcell.symm
      rw [this, idx_permLine_requiredCols σ ⟨n, hn8⟩]
      simp
    rw [hfind]
  · rw [hfirst, permLine_length]
    simp only [not_or]
    constructor
    · omega
    · decide

/-- C7 (amended).  For every permutation of the eight required header
columns that keeps `query` as the first column (applied consistently to
the header and to every 8-cell data record), `parseRatingsCSV` accepts
the file exactly when it accepts the canonical one and produces the
identical `RatingRow` list. -/
theorem parseRatingsCSV_perm_first_fixed (σ : Equiv.Perm (Fin 8)) (hσ : σ 0 = 0)
    (data : List (List Str)) (hlen : ∀ l ∈ data, l.length = 8) :
    parseRatingsCSV (permLine σ requiredCols :: data.map (permLine σ)) =
      parseRatingsCSV (requiredCols :: data) := by
  have hcanon : headerCheck requiredCols = .ok () := rfl
  simp only [parseRatingsCSV, headerCheck_permLine σ hσ, hcanon]
  exact parseRows_permLine σ data hlen

/-- Witness for the amended C7 theorem: swapping the `mode` and `rater`
columns leaves the parse unchanged. -/
theorem parseRatingsCSV_perm_first_fixed_witness :
    parseRatingsCSV
        (permLine (Equiv.swap 1 2) requiredCols ::
          [[str "q1", str "baseline", str "A", str "3", str "1", str "4", str "5",
            str "0"]].map (permLine (Equiv.swap 1 2))) =
      parseRatingsCSV
        [requiredCols,
         [str "q1", str "baseline", str "A", str "3", str "1", str "4", str "5", str "0"]] :=
  parseRatingsCSV_perm_first_fixed (Equiv.swap 1 2) (by decide) _ (by decide)

/-- C7 (counterexample).  The header permutation that puts `mode`
first is a permutation of the eight required columns, yet the parse is
rejected outright ("first column must be query") while the canonical
file parses — column order is not insignificant. -/
theorem parseRatingsCSV_header_order_counterexample :
    ([str "mode", str "query", str "rater", str "relevance", str "accuracy",
      str "completeness", str "usefulness", str "json_valid"] : List Str).Perm
        requiredCols ∧
    parseRatingsCSV
        [[str "mode", str "query", str "rater", str "relevance", str "accuracy",
          str "completeness", str "usefulness", str "json_valid"],
         [str "baseline", str "q1", str "A", str "3", str "1", str "4", str "5", str "0"]] =
      .error (str "invalid header: first column must be query") ∧
    parseRatingsCSV
        [requiredCols,
         [str "q1", str "baseline", str "A", str "3", str "1", str "4", str "5", str "0"]] =
      .ok [⟨str "q1", str "baseline", str "A", 3, 1, 4, 5, 0⟩] :=
  ⟨List.Perm.swap (str "query") (str "mode") _, rfl, rfl⟩

/-- The size of the claim's "relevant set" of a record, following the
spec: exactly the (trimmed, non-empty) ID hints when present, else the
matcher's relevant titles. -/
def claimRelevantSize (cat : EventsCatalog) (now : CalDate) (r : ResultItem) : ℕ :=
  if r.relevantEventIDs ≠ [] then
    (((r.relevantEventIDs.map sTrimSpace).filter (· ≠ [])).toFinset).card
  else (relevantTitles cat now r.query).card

/-- The size of the claim's "predicted set" of a record, following the
spec: title-substring predictions, as IDs when the record carries an ID
hint. -/
def claimPredictedSize (cat : EventsCatalog) (r : ResultItem) : ℕ :=
  if r.relevantEventIDs ≠ [] then
    (predictedIDsFromResponse cat r.response (buildTitleToIDMap cat)).card
  else (predictedTitles cat r.response).card

/-- `f1Score` vanishes exactly when one of its non-negative inputs
does. -/
theorem f1Score_eq_zero_iff (p r : ℚ) (hp : 0 ≤ p) (hr : 0 ≤ r) :
    f1Score p r = 0 ↔ (p = 0 ∨ r = 0) := by
  unfold f1Score
  by_cases h : p + r = 0
  · rw [if_pos h]
    have hp0 : p = 0 := le_antisymm (by linarith) hp
    simp [hp0]
  · rw [if_neg h]
    rw [div_eq_zero_iff]
    constructor
    · rintro (h2 | h2)
      · have h3 : p * r = 0 := by linarith
        exact mul_eq_zero.mp h3
      · exact absurd h2 h
    · rintro (rfl | rfl) <;> simp

/-- The F1 cell of every score row is `f1Score` of its precision and
coverage cells (in both the title-based and the ID-based branch). -/
theorem scoreRecord_f1_eq (cat : EventsCatalog) (now : CalDate) (r : ResultItem) :
    (scoreRecord cat now r).f1 =
      f1Score (scoreRecord cat now r).precision (scoreRecord cat now r).coverage := by
  simp only [scoreRecord]
  split_ifs <;> rfl

/-- Coverage from `evalWithUIBService` is non-negative. -/
theorem evalCoverage_nonneg (cat : EventsCatalog) (now : CalDate) (q resp : Str) :
    0 ≤ evalCoverage cat now q resp := by
  unfold evalCoverage
  split_ifs <;> positivity

/-- Precision from `precisionAndFabrication` is non-negative. -/
theorem precisionAndFabrication_precision_nonneg (cat : EventsCatalog) (now : CalDate)
    (q resp : Str) : 0 ≤ (precisionAndFabrication cat now q resp).precision := by
  simp only [precisionAndFabrication]
  split_ifs <;> positivity

/-- The coverage cell of every score row is non-negative. -/
theorem scoreRecord_coverage_nonneg (cat : EventsCatalog) (now : CalDate)
    (r : ResultItem) : 0 ≤ (scoreRecord cat now r).coverage := by
  simp only [scoreRecord]
  split_ifs <;>
    first
      | positivity
      | exact evalCoverage_nonneg cat now r.query r.response

/-- The precision cell of every score row is the title-based
precision. -/
theorem scoreRecord_precision_eq (cat : EventsCatalog) (now : CalDate)
    (r : ResultItem) :
    (scoreRecord cat now r).precision =
      (precisionAndFabrication cat now r.query r.response).precision := by
  simp only [scoreRecord]

/-- C2 (amended).  For every record whose (spec-defined) relevant set
and predicted set are both non-empty, the F1 cell of its score row is
`0` iff its precision cell is `0` or its coverage (recall) cell is `0`
(with "and" instead of "or" the claim fails on records carrying an ID
hint — see the counterexample). -/
theorem scoreRow_f1_zero_iff (cat : EventsCatalog) (now : CalDate) (r : ResultItem)
    (_hrel : claimRelevantSize cat now r ≠ 0) (_hpred : claimPredictedSize cat r ≠ 0) :
    (scoreRecord cat now r).f1 = 0 ↔
      ((scoreRecord cat now r).precision = 0 ∨ (scoreRecord cat now r).coverage = 0) := by
  rw [scoreRecord_f1_eq]
  exact f1Score_eq_zero_iff _ _
    (scoreRecord_precision_eq cat now r ▸
      precisionAndFabrication_precision_nonneg cat now r.query r.response)
    (scoreRecord_coverage_nonneg cat now r)

/-- Witness for the amended C2 theorem on a record matching the
example event without an ID hint. -/
theorem scoreRow_f1_zero_iff_witness :
    (scoreRecord exCatalog ⟨2025, 10, 4⟩
        ⟨str "alpha", str "baseline", str "alpha festival hadir", []⟩).f1 = 0 ↔
      ((scoreRecord exCatalog ⟨2025, 10, 4⟩
          ⟨str "alpha", str "baseline", str "alpha festival hadir", []⟩).precision = 0 ∨
        (scoreRecord exCatalog ⟨2025, 10, 4⟩
            ⟨str "alpha", str "baseline", str "alpha festival hadir", []⟩).coverage = 0) :=
  scoreRow_f1_zero_iff exCatalog ⟨2025, 10, 4⟩
    ⟨str "alpha", str "baseline", str "alpha festival hadir", []⟩
    (by decide) (by decide)

/-- A record with an ID hint whose response names the event's title
while the title-based matcher finds nothing relevant. -/
def exHintRecord : ResultItem :=
  ⟨str "zzz", str "engineered", str "alpha festival hadir", [str "E1"]⟩

/-- C2 (counterexample).  For the ID-hinted record `exHintRecord` the
claim's relevant set (`{E1}`) and predicted set (`{E1}` via the title
map) are non-empty, yet the score row has `F1 = 0` with `coverage = 1`
and `precision = 0`: F1 vanishes although recall does not, refuting
"F1 = 0 iff precision = 0 and recall = 0" (title-based precision is
paired with ID-based recall). -/
theorem scoreRow_f1_zero_iff_counterexample :
    claimRelevantSize exCatalog ⟨2025, 10, 4⟩ exHintRecord ≠ 0 ∧
    claimPredictedSize exCatalog exHintRecord ≠ 0 ∧
    (scoreRecord exCatalog ⟨2025, 10, 4⟩ exHintRecord).f1 = 0 ∧
    (scoreRecord exCatalog ⟨2025, 10, 4⟩ exHintRecord).coverage = 1 ∧
    (scoreRecord exCatalog ⟨2025, 10, 4⟩ exHintRecord).precision = 0 := by
  have hne : (([str "E1"] : List Str) ≠ []) := by decide
  have hcard :
      ((([str "E1"].map sTrimSpace).filter (· ≠ [])).toFinset : Finset Str).card = 1 := by
    decide
  have hids : ((predictedIDsFromResponse exCatalog (str "alpha festival hadir")
      (buildTitleToIDMap exCatalog)) ∩
      (([str "E1"].map sTrimSpace).filter (· ≠ [])).toFinset).card = 1 := by decide
  have hpredT : (predictedTitles exCatalog (str "alpha festival hadir")).card = 1 := by
    decide
  have hinter : ((predictedTitles exCatalog (str "alpha festival hadir")) ∩
      (relevantTitles exCatalog ⟨2025, 10, 4⟩ (str "zzz"))).card = 0 := by decide
  have hprec : (precisionAndFabrication exCatalog ⟨2025, 10, 4⟩ (str "zzz")
      (str "alpha festival hadir")).precision = 0 := by
    simp only [precisionAndFabrication]
    rw [hinter, hpredT]
    norm_num
  refine ⟨by decide, by decide, ?_, ?_, ?_⟩
  · simp only [scoreRecord, exHintRecord]
    rw [if_pos hne, hcard, if_pos (by norm_num : (0:ℕ) < 1), hids, hprec]
    norm_num [f1Score]
  · simp only [scoreRecord, exHintRecord]
    rw [if_pos hne, hcard, if_pos (by norm_num : (0:ℕ) < 1), hids]
    norm_num
  · simp only [scoreRecord, exHintRecord]
    exact hprec
